import Mathlib

/-!
Shallow embedding of `src/internal_birefnet/pipeline.py` (sd-webui-birefnet).

Images are modelled as a width, a height and a pixel function (grayscale
values as naturals; row index first, column index second, matching the
numpy array layout of a PIL image).  Stateful pieces are made explicit:
the filesystem is an association list from paths to file contents, the
neural network forward pass and the external `refine_foreground` helper
are function parameters, and Python exceptions are `Except` errors.
The scipy morphology operations `binary_dilation` / `binary_erosion`
(at their default `origin = 0`, `border_value = 0`) and Pillow's
`Image.resize` size checks are modelled from their documented semantics,
since those libraries are external to the repository.
-/

/-- A raster image: `px` takes the row index `y` then the column index `x`. -/
structure Img where
  width : Nat
  height : Nat
  px : Nat → Nat → Nat

/-- A boolean raster, the result type of scipy binary morphology. -/
structure BoolImg where
  width : Nat
  height : Nat
  px : Nat → Nat → Bool

/-- Models `PIL.Image.resize((w, h))`: Pillow first returns a copy when the
requested size equals the current size, and otherwise rejects any dimension
smaller than 1 (`ValueError: height and width must be > 0`).  The pixel
sampling of the resampling filter is abstracted by nearest-neighbour
sampling; the claims only depend on the resulting dimensions. -/
def pilResize (img : Img) (w h : Int) : Except String Img :=
  if w = (img.width : Int) ∧ h = (img.height : Int) then .ok img
  else if w < 1 ∨ h < 1 then .error "ValueError: height and width must be > 0"
  else .ok { width := w.toNat, height := h.toNat,
             px := fun y x => img.px (y * img.height / h.toNat) (x * img.width / w.toNat) }

/-- Python `str.strip()` / whitespace test for the characters it removes. -/
def pySpace (c : Char) : Bool :=
  c = ' ' || c = '\t' || c = '\n' || c = '\x0b' || c = '\x0c' || c = '\r'

/-- Python `str.strip()` on a list of characters. -/
def stripList (l : List Char) : List Char :=
  ((l.dropWhile pySpace).reverse.dropWhile pySpace).reverse

/-- Python `str.split(sep)` for a one-character separator `sep`. -/
def splitOnChar (sep : Char) : List Char → List (List Char)
  | [] => [[]]
  | c :: rest =>
    match splitOnChar sep rest with
    | [] => [[c]]
    | t :: ts => if c = sep then [] :: t :: ts else (c :: t) :: ts

/-- One decimal digit, as accepted by Python `int()`. -/
def pyDigit (c : Char) : Option Nat :=
  if '0' ≤ c ∧ c ≤ '9' then some (c.toNat - '0'.toNat) else none

/-- Accumulating decimal parse of a nonempty all-digit string. -/
def pyDigits (acc : Nat) : List Char → Option Nat
  | [] => some acc
  | c :: rest =>
    match pyDigit c with
    | none => none
    | some d => pyDigits (acc * 10 + d) rest

/-- Models Python `int(s)` on decimal literals: surrounding whitespace is
stripped, an optional sign is allowed, and the rest must be a nonempty
digit string; any other input raises `ValueError` (here: `none`). -/
def pyInt (l : List Char) : Option Int :=
  match stripList l with
  | [] => none
  | '-' :: rest =>
    match rest with
    | [] => none
    | _ => (pyDigits 0 rest).map fun n => -(n : Int)
  | '+' :: rest =>
    match rest with
    | [] => none
    | _ => (pyDigits 0 rest).map fun n => (n : Int)
  | l' => (pyDigits 0 l').map fun n => (n : Int)

/-- `os.path.join` for a relative second component. -/
def pathJoin (a b : String) : String := a ++ "/" ++ b

/-- The `usage_to_weights_file` dictionary of `pipeline.py`. -/
def usage_to_weights_file : List (String × String) :=
  [("General", "BiRefNet"),
   ("General-HR", "BiRefNet_HR"),
   ("General-Lite", "BiRefNet_T"),
   ("General-Lite-2K", "BiRefNet_lite-2K"),
   ("Portrait", "BiRefNet-portrait"),
   ("Matting", "BiRefNet-matting"),
   ("Matting-HR", "BiRefNet_HR-matting"),
   ("Matting-Lite", "BiRefNet_lite-matting"),
   ("Anime-Lite", "BiRefNet_lite-anime"),
   ("Dynamic", "BiRefNet_dynamic"),
   ("DIS", "BiRefNet-DIS5K"),
   ("HRSOD", "BiRefNet-HRSOD"),
   ("COD", "BiRefNet-COD"),
   ("DIS-TR_TEs", "BiRefNet-DIS5K-TR_TEs")]

/-- Python dictionary subscript `usage_to_weights_file[key]` (a missing key
would raise `KeyError`, hence the `Option`). -/
def lookupReg : List (String × String) → String → Option String
  | [], _ => none
  | (k, v) :: rest, s => if k = s then some v else lookupReg rest s

/-- The `BiRefNetModelName` literal type of `pipeline.py`. -/
inductive BiRefNetModelName where
  | General
  | GeneralHR
  | GeneralLite
  | GeneralLite2K
  | Portrait
  | Matting
  | MattingHR
  | MattingLite
  | AnimeLite
  | Dynamic
  | DIS
  | HRSOD
  | COD
  | DISTRTEs
deriving DecidableEq

/-- The string literal denoted by each member of `BiRefNetModelName`. -/
def BiRefNetModelName.str : BiRefNetModelName → String
  | .General => "General"
  | .GeneralHR => "General-HR"
  | .GeneralLite => "General-Lite"
  | .GeneralLite2K => "General-Lite-2K"
  | .Portrait => "Portrait"
  | .Matting => "Matting"
  | .MattingHR => "Matting-HR"
  | .MattingLite => "Matting-Lite"
  | .AnimeLite => "Anime-Lite"
  | .Dynamic => "Dynamic"
  | .DIS => "DIS"
  | .HRSOD => "HRSOD"
  | .COD => "COD"
  | .DISTRTEs => "DIS-TR_TEs"

/-- The filesystem as an association list from paths to file contents
(contents abstracted as a natural number). -/
def FS := List (String × Nat)

/-- `os.path.exists` on the modelled filesystem. -/
def fsExists (fs : FS) (p : String) : Bool :=
  fs.any fun e => e.1 = p

/-- `download_models(model_root, model_urls)` of `pipeline.py`: for each
`(local_file, url)` pair, when `model_root/local_file` does not exist,
`load_file_from_url` downloads it there (modelled as inserting the path
with fresh content `c` and logging the performed download).  Returns the
new filesystem and the list of downloads performed. -/
def download_models (fs : FS) (model_root : String)
    (model_urls : List (String × String)) (c : Nat) : FS × List (String × String) :=
  model_urls.foldl
    (fun st lu =>
      let local_path := pathJoin model_root lu.1
      if fsExists st.1 local_path then st
      else ((local_path, c) :: st.1, st.2 ++ [lu]))
    (fs, [])

/-- `download_birefnet_model(model_name)` of `pipeline.py`; `models_path`
is a parameter because the real value depends on the hosting webui.  The
dictionary subscript may in principle raise `KeyError` (the `error` case). -/
def download_birefnet_model (fs : FS) (models_path : String)
    (model_name : BiRefNetModelName) (c : Nat) : Except String (FS × List (String × String)) :=
  let model_root := pathJoin models_path "birefnet"
  match lookupReg usage_to_weights_file model_name.str with
  | none => .error "KeyError"
  | some weights_file =>
    .ok (download_models fs model_root
      [(model_name.str ++ ".safetensors",
        "https://huggingface.co/ZhengPeng7/" ++ weights_file ++ "/resolve/main/model.safetensors")] c)

/-- The weights repository name of each model, read off the registry. -/
def weightsFile : BiRefNetModelName → String
  | .General => "BiRefNet"
  | .GeneralHR => "BiRefNet_HR"
  | .GeneralLite => "BiRefNet_T"
  | .GeneralLite2K => "BiRefNet_lite-2K"
  | .Portrait => "BiRefNet-portrait"
  | .Matting => "BiRefNet-matting"
  | .MattingHR => "BiRefNet_HR-matting"
  | .MattingLite => "BiRefNet_lite-matting"
  | .AnimeLite => "BiRefNet_lite-anime"
  | .Dynamic => "BiRefNet_dynamic"
  | .DIS => "BiRefNet-DIS5K"
  | .HRSOD => "BiRefNet-HRSOD"
  | .COD => "BiRefNet-COD"
  | .DISTRTEs => "BiRefNet-DIS5K-TR_TEs"

/-- The download URL built by `download_birefnet_model`. -/
def hfUrl (m : BiRefNetModelName) : String :=
  "https://huggingface.co/ZhengPeng7/" ++ weightsFile m ++ "/resolve/main/model.safetensors"

/-- The device-selection block of `BiRefNetPipeline.__init__` (lines
115-126).  The two availability probes may raise (modelled as `Except`
inputs); the bare `except` clause turns any such exception into `"cpu"`. -/
def selectDevice (flag_force_cpu : Bool) (device_id : Int)
    (mps_available : Except String Bool) (cuda_available : Except String Bool) : String :=
  if flag_force_cpu then "cpu"
  else
    match mps_available with
    | .error _ => "cpu"
    | .ok true => "mps"
    | .ok false =>
      match cuda_available with
      | .error _ => "cpu"
      | .ok true => "cuda:" ++ toString device_id
      | .ok false => "cpu"

/-- The input image viewed as the boolean array scipy builds from it
(`numpy.asarray(input, dtype=bool)`), extended by the default border
value `0` (`False`) outside the image. -/
def maskBool (img : Img) (y x : Int) : Bool :=
  if 0 ≤ y ∧ y < (img.height : Int) ∧ 0 ≤ x ∧ x < (img.width : Int) then
    decide (img.px y.toNat x.toNat ≠ 0)
  else false

/-- The structuring element built by `dilate_mask`: over the
`n × n` meshgrid with `center = n / 2`, the cell `(i, j)` is set when
`(x - center)^2 + (y - center)^2 <= center^2` (a disc). -/
def kernel (n i j : Nat) : Bool :=
  decide (((j : Int) - ((n / 2 : Nat) : Int)) ^ 2 + ((i : Int) - ((n / 2 : Nat) : Int)) ^ 2
    ≤ ((n / 2 : Nat) : Int) ^ 2)

/-- `scipy.ndimage.binary_dilation` at one output pixel, for an `n × n`
structuring element with origin `0`: the output is the union of copies of
the structuring element centred (at its cell `shape // 2`) on the true
input pixels. -/
def dilationAt (img : Img) (n : Nat) (y x : Nat) : Bool :=
  (List.range n).any fun a =>
    (List.range n).any fun b =>
      kernel n a b && maskBool img ((y : Int) - a + (n / 2 : Nat)) ((x : Int) - b + (n / 2 : Nat))

/-- `scipy.ndimage.binary_erosion` at one output pixel, for an `n × n`
structuring element with origin `0` and border value `0`. -/
def erosionAt (img : Img) (n : Nat) (y x : Nat) : Bool :=
  (List.range n).all fun a =>
    (List.range n).all fun b =>
      !kernel n a b || maskBool img ((y : Int) + a - (n / 2 : Nat)) ((x : Int) + b - (n / 2 : Nat))

/-- The full boolean raster produced by `binary_dilation(mask, kernel n)`. -/
def dilationImg (img : Img) (n : Nat) : BoolImg :=
  { width := img.width, height := img.height, px := dilationAt img n }

/-- The full boolean raster produced by `binary_erosion(mask, kernel n)`. -/
def erosionImg (img : Img) (n : Nat) : BoolImg :=
  { width := img.width, height := img.height, px := erosionAt img n }

/-- `BiRefNetPipeline.dilate_mask`: builds the disc kernel over the
`|amt| × |amt|` grid and applies `binary_erosion` for a negative amount,
`binary_dilation` otherwise.  scipy rejects an empty structuring element
(`RuntimeError: structure must not be empty`), which happens exactly when
`amt = 0`. -/
def dilate_mask (mask : Img) (dilation_amt : Int) : Except String BoolImg :=
  let n := dilation_amt.natAbs
  if n = 0 then .error "structure must not be empty"
  else if dilation_amt < 0 then .ok (erosionImg mask n)
  else .ok (dilationImg mask n)

/-- `BiRefNetPipeline.get_edge_mask`: XOR of `dilate_mask(mask, w // 2)`
and `dilate_mask(mask, -(w // 2))`, cast to `uint8` and scaled by 255. -/
def get_edge_mask (mask : Img) (mask_width : Int) : Except String Img :=
  match dilate_mask mask (mask_width / 2) with
  | .error e => .error e
  | .ok d =>
    match dilate_mask mask (-(mask_width / 2)) with
    | .error e => .error e
    | .ok er =>
      .ok { width := mask.width, height := mask.height,
            px := fun y x => if (d.px y x).xor (er.px y x) then 255 else 0 }

/-- The edge image exactly as the spec describes it: the pixelwise XOR of
the dilation and the erosion of the mask by the same `n × n` disc kernel,
scaled to `{0, 255}`. -/
def edgeXorSpec (mask : Img) (n : Nat) : Img :=
  { width := mask.width, height := mask.height,
    px := fun y x => if (dilationAt mask n y x).xor (erosionAt mask n y x) then 255 else 0 }

/-- The triple returned by `BiRefNetPipeline.process`. -/
structure ProcResult where
  mask : Option Img
  foreground : Option Img
  edge_mask : Option Img

/-- Events observed during a `process` call: the Pillow resizes performed
and the forward passes of the wrapped network (with the dimensions of the
tensor handed to it). -/
inductive Ev where
  | resizeEv (w h : Int)
  | netEv (w h : Nat)
deriving DecidableEq

/-- The resolution string actually parsed by `process`: the argument, or
`f"{image.width}x{image.height}"` when the argument is empty. -/
def resString (image : Img) (resolution : String) : String :=
  if resolution = "" then Nat.repr image.width ++ "x" ++ Nat.repr image.height else resolution

/-- The list comprehension of `process`:
`[int(int(reso) // 32 * 32) for reso in ...]`; a non-integer token raises
`ValueError` (here: `none`). -/
def parseDims : List (List Char) → Option (List Int)
  | [] => some []
  | t :: ts =>
    match pyInt t with
    | none => none
    | some n =>
      match parseDims ts with
      | none => none
      | some ds => some (n / 32 * 32 :: ds)

/-- `BiRefNetPipeline.process`.  The preprocessing (normalisation, fp16
cast) and the forward pass of the network are folded into the abstract
parameter `net`; the external `refine_foreground` followed by `putalpha`
is the abstract parameter `fg`.  The second component of the result is
the event trace (resizes performed, network invocations). -/
def process (net : Img → Img) (fg : Img → Img → Img) (image : Img) (resolution : String)
    (return_mask return_foreground return_edge_mask : Bool) (edge_mask_width : Int) :
    Except String ProcResult × List Ev :=
  if return_mask = false ∧ return_foreground = false ∧ return_edge_mask = false then
    (.ok ⟨none, none, none⟩, [])
  else
    match parseDims (splitOnChar 'x' (stripList (resString image resolution).data)) with
    | none => (.error "ValueError: invalid literal for int with base 10", [])
    | some dims =>
      match dims with
      | [w, h] =>
        match pilResize image w h with
        | .error e => (.error e, [.resizeEv w h])
        | .ok image_pil =>
          let pred := net image_pil
          let tr := [Ev.resizeEv w h, .netEv image_pil.width image_pil.height,
                     .resizeEv image.width image.height]
          match pilResize pred image.width image.height with
          | .error e => (.error e, tr)
          | .ok mask =>
            let foreground := if return_foreground then some (fg image mask) else none
            match (if return_edge_mask then (get_edge_mask mask edge_mask_width).map some
                   else .ok none) with
            | .error e => (.error e, tr)
            | .ok edge_mask =>
              (.ok ⟨if return_mask then some mask else none, foreground, edge_mask⟩, tr)
      | _ => (.error "TypeError: size must be a sequence of length 2", [])

/-- Success test for a modelled Python call. -/
def isOkE {α : Type} (e : Except String α) : Bool :=
  match e with
  | .ok _ => true
  | .error _ => false

/-- The `(width, height)` of the mask component of a `process` result. -/
def maskDims (e : Except String ProcResult) : Option (Nat × Nat) :=
  match e with
  | .ok r => r.mask.map fun m => (m.width, m.height)
  | .error _ => none

/-- A small concrete mask used by the witnesses. -/
def sampleMask : Img :=
  { width := 3, height := 3, px := fun y x => if y = 1 ∧ x = 1 then 255 else 0 }

/-- A small concrete input image used by the witnesses. -/
def sampleImg : Img :=
  { width := 4, height := 3, px := fun _ _ => 7 }

/-! ### Helper lemmas -/

lemma lookupReg_str (m : BiRefNetModelName) :
    lookupReg usage_to_weights_file m.str = some (weightsFile m) := by
  cases m <;> rfl

lemma download_models_single (fs : FS) (root fname url : String) (c : Nat) :
    download_models fs root [(fname, url)] c =
      if fsExists fs (pathJoin root fname) then (fs, [])
      else ((pathJoin root fname, c) :: fs, [(fname, url)]) := by
  unfold download_models
  simp only [List.foldl_cons, List.foldl_nil]
  by_cases hex : fsExists fs (pathJoin root fname) = true
  · simp [hex]
  · simp [hex]

lemma dilate_mask_pos (mask : Img) (a : Int) (ha : 0 < a) :
    dilate_mask mask a = .ok (dilationImg mask a.natAbs) := by
  unfold dilate_mask
  rw [if_neg (by omega), if_neg (by omega)]

lemma dilate_mask_neg (mask : Img) (a : Int) (ha : a < 0) :
    dilate_mask mask a = .ok (erosionImg mask a.natAbs) := by
  unfold dilate_mask
  rw [if_neg (by omega), if_pos ha]

/-! ### Claims -/

/-- C4: if `flag_force_cpu` is true the device is `"cpu"`; otherwise any
exception raised by the availability probes is swallowed and the device
falls back to `"cpu"` — device selection never propagates an exception. -/
theorem spec_C4 (device_id : Int) (mps cuda : Except String Bool) :
    selectDevice true device_id mps cuda = "cpu" ∧
    (∀ e, mps = .error e → selectDevice false device_id mps cuda = "cpu") ∧
    (∀ e, mps = .ok false → cuda = .error e → selectDevice false device_id mps cuda = "cpu") := by
  refine ⟨rfl, ?_, ?_⟩
  · rintro e rfl
    rfl
  · rintro e rfl rfl
    rfl

/-- Witness for C4 at a concrete failing probe. -/
theorem spec_C4_witness : selectDevice false 0 (.error "probe failed") (.ok true) = "cpu" :=
  (spec_C4 0 (.error "probe failed") (.ok true)).2.1 "probe failed" rfl

/-- C8: every member of `BiRefNetModelName` is a key of
`usage_to_weights_file`, so `download_birefnet_model` never fails with a
missing-key error for a well-typed model name. -/
theorem spec_C8 (m : BiRefNetModelName) :
    (lookupReg usage_to_weights_file m.str).isSome = true ∧
    ∀ (fs : FS) (mp : String) (c : Nat), isOkE (download_birefnet_model fs mp m c) = true := by
  cases m <;> exact ⟨rfl, fun _ _ _ => rfl⟩

/-- C5: `download_birefnet_model` targets exactly the path
`models_path/birefnet/{model_name}.safetensors`; when the file is missing
it performs exactly one download of that file and creates it, and when
the file already exists it downloads nothing and leaves the filesystem
unchanged. -/
theorem spec_C5 (fs : FS) (mp : String) (m : BiRefNetModelName) (c : Nat) :
    (fsExists fs (pathJoin (pathJoin mp "birefnet") (m.str ++ ".safetensors")) = false →
      download_birefnet_model fs mp m c =
        .ok ((pathJoin (pathJoin mp "birefnet") (m.str ++ ".safetensors"), c) :: fs,
             [(m.str ++ ".safetensors", hfUrl m)])) ∧
    (fsExists fs (pathJoin (pathJoin mp "birefnet") (m.str ++ ".safetensors")) = true →
      download_birefnet_model fs mp m c = .ok (fs, [])) := by
  unfold download_birefnet_model
  rw [lookupReg_str m]
  simp only [download_models_single]
  constructor
  · intro hex
    rw [hex]
    rfl
  · intro hex
    rw [hex]
    rfl

/-- Witness for C5: on an empty filesystem the General model is fetched and
written at `models/birefnet/General.safetensors`; on a filesystem already
holding that file, nothing is downloaded. -/
theorem spec_C5_witness :
    download_birefnet_model [] "models" BiRefNetModelName.General 0 =
      .ok ([("models/birefnet/General.safetensors", 0)],
           [("General.safetensors",
             "https://huggingface.co/ZhengPeng7/BiRefNet/resolve/main/model.safetensors")]) ∧
    download_birefnet_model [("models/birefnet/General.safetensors", 5)] "models"
        BiRefNetModelName.General 0 =
      .ok ([("models/birefnet/General.safetensors", 5)], []) :=
  ⟨(spec_C5 [] "models" BiRefNetModelName.General 0).1 rfl,
   (spec_C5 [("models/birefnet/General.safetensors", 5)] "models"
     BiRefNetModelName.General 0).2 rfl⟩

/-- C6 counterexample: for dilation amount 2 the kernel is a 2 x 2 grid
with center `2 // 2 = 1`, and `kernel[0][0] = 0` while
`kernel[2-1-0][2-1-0] = kernel[1][1] = 1`: the structuring element is not
invariant under point reflection about the grid center, refuting the
claim at amount 2, i = 0, j = 0. -/
theorem spec_C6_cex : kernel 2 0 0 ≠ kernel 2 (2 - 1 - 0) (2 - 1 - 0) := by decide

/-- C6 (amended): the structuring element built by `dilate_mask` is
point-symmetric whenever the dilation amount is odd (for even nonzero
amounts the disc center `|amt| // 2` is off the grid center and symmetry
fails), and the same kernel is used for amount `a` and amount `-a`. -/
theorem spec_C6 :
    (∀ (amt : Int) (i j : Nat), amt.natAbs % 2 = 1 → i < amt.natAbs → j < amt.natAbs →
      kernel amt.natAbs i j = kernel amt.natAbs (amt.natAbs - 1 - i) (amt.natAbs - 1 - j)) ∧
    (∀ (a : Int) (i j : Nat), kernel (-a).natAbs i j = kernel a.natAbs i j) := by
  constructor
  · intro amt i j hodd hi hj
    unfold kernel
    rw [decide_eq_decide]
    have e1 : ((amt.natAbs - 1 - i : Nat) : Int) - ((amt.natAbs / 2 : Nat) : Int) =
        -((i : Int) - ((amt.natAbs / 2 : Nat) : Int)) := by omega
    have e2 : ((amt.natAbs - 1 - j : Nat) : Int) - ((amt.natAbs / 2 : Nat) : Int) =
        -((j : Int) - ((amt.natAbs / 2 : Nat) : Int)) := by omega
    rw [e1, e2, neg_sq, neg_sq]
  · intro a i j
    rw [Int.natAbs_neg]

/-- Witness for C6: at the odd amount 3 the kernel cell `(0, 1)` matches
its point reflection `(2, 1)`. -/
theorem spec_C6_witness :
    kernel (Int.natAbs 3) 0 1 =
      kernel (Int.natAbs 3) (Int.natAbs 3 - 1 - 0) (Int.natAbs 3 - 1 - 1) :=
  spec_C6.1 3 0 1 (by decide) (by decide) (by decide)

/-- C3 counterexample: at `mask_width = 0` (or 1) the dilation amount
`mask_width // 2` is 0, the structuring element is the empty `0 x 0`
array, and scipy's binary dilation raises
`RuntimeError: structure must not be empty` instead of producing the
XOR image the claim promises for every `mask_width`. -/
theorem spec_C3_cex : get_edge_mask sampleMask 0 = .error "structure must not be empty" := rfl

/-- C3 (amended): for every mask and every `mask_width` with
`mask_width // 2 ≠ 0` (in particular every `mask_width ≥ 2`),
`get_edge_mask` returns exactly the pixelwise XOR of the dilation and the
erosion of the mask by the same `|mask_width // 2|`-sized disc kernel,
scaled to `{0, 255}`; for `mask_width` 0 or 1 the empty structuring
element makes scipy raise instead. -/
theorem spec_C3 (mask : Img) (w : Int) (h : w / 2 ≠ 0) :
    get_edge_mask mask w = .ok (edgeXorSpec mask (w / 2).natAbs) := by
  rcases h.lt_or_lt with hlt | hgt
  · unfold get_edge_mask
    rw [dilate_mask_neg mask _ hlt, dilate_mask_pos mask _ (by omega), Int.natAbs_neg]
    dsimp only [edgeXorSpec, erosionImg, dilationImg]
    congr 1
    congr 1
    funext y x
    rw [Bool.xor_comm]
  · unfold get_edge_mask
    rw [dilate_mask_pos mask _ hgt, dilate_mask_neg mask _ (by omega), Int.natAbs_neg]
    rfl

/-- Witness for C3 at `mask_width = 4` on a concrete mask. -/
theorem spec_C3_witness :
    get_edge_mask sampleMask 4 = .ok (edgeXorSpec sampleMask ((4 : Int) / 2).natAbs) :=
  spec_C3 sampleMask 4 (by decide)

/-- C10: whenever `get_edge_mask` returns an image, every pixel of it is
either 0 or 255 (the boolean XOR is cast to uint8 and scaled by 255). -/
theorem spec_C10 (mask : Img) (w : Int) (y x : Nat) :
    match get_edge_mask mask w with
    | .ok img => img.px y x = 0 ∨ img.px y x = 255
    | .error _ => True := by
  unfold get_edge_mask
  rcases hd : dilate_mask mask (w / 2) with e | d
  · simp
  · rcases he : dilate_mask mask (-(w / 2)) with e | er
    · simp
    · by_cases hxy : (d.px y x).xor (er.px y x) = true
      · simp [hxy]
      · simp [hxy]

lemma res_ne_empty (a b : String) : a ++ "x" ++ b ≠ "" := by
  intro h
  have hd := congrArg String.data h
  simp only [String.data_append] at hd
  rcases List.append_eq_nil.mp hd with ⟨h1, h2⟩
  rcases List.append_eq_nil.mp h1 with ⟨h3, h4⟩
  exact absurd h4 (by decide)

lemma pilResize_ok_dims (img : Img) (w h : Int) (r : Img)
    (hr : pilResize img w h = .ok r) : r.width = w.toNat ∧ r.height = h.toNat := by
  unfold pilResize at hr
  by_cases hc : w = (img.width : Int) ∧ h = (img.height : Int)
  · rw [if_pos hc] at hr
    obtain rfl := Except.ok.inj hr
    constructor
    · have := hc.1
      omega
    · have := hc.2
      omega
  · rw [if_neg hc] at hr
    by_cases hlt : w < 1 ∨ h < 1
    · rw [if_pos hlt] at hr
      exact absurd hr (by simp)
    · rw [if_neg hlt] at hr
      obtain rfl := Except.ok.inj hr
      exact ⟨rfl, rfl⟩

/-- Exhaustive description of the successful results of `process`: either
the early all-flags-false return, or the normal path, whose mask has the
input image's dimensions and whose three components are governed by the
three flags. -/
lemma process_ok_cases (net : Img → Img) (fg : Img → Img → Img) (image : Img)
    (resolution : String) (f1 f2 f3 : Bool) (ew : Int) (r : ProcResult)
    (hr : (process net fg image resolution f1 f2 f3 ew).1 = .ok r) :
    (f1 = false ∧ f2 = false ∧ f3 = false ∧ r = ⟨none, none, none⟩) ∨
    (¬(f1 = false ∧ f2 = false ∧ f3 = false) ∧
      ∃ mask em, mask.width = image.width ∧ mask.height = image.height ∧
        r = ⟨if f1 then some mask else none,
             if f2 then some (fg image mask) else none,
             if f3 then some em else none⟩) := by
  unfold process at hr
  by_cases hall : f1 = false ∧ f2 = false ∧ f3 = false
  · rw [if_pos hall] at hr
    exact Or.inl ⟨hall.1, hall.2.1, hall.2.2, (Except.ok.inj hr).symm⟩
  · rw [if_neg hall] at hr
    refine Or.inr ⟨hall, ?_⟩
    rcases hp : parseDims (splitOnChar 'x' (stripList (resString image resolution).data))
      with _ | dims
    · rw [hp] at hr
      simp at hr
    · rw [hp] at hr
      dsimp only at hr
      rcases dims with _ | ⟨w, _ | ⟨h, _ | ⟨t, ts⟩⟩⟩
      · simp at hr
      · simp at hr
      · dsimp only at hr
        rcases hpr : pilResize image w h with e | image_pil
        · rw [hpr] at hr
          simp at hr
        · rw [hpr] at hr
          dsimp only at hr
          rcases hm : pilResize (net image_pil) (image.width : Int) (image.height : Int)
            with e | mask
          · rw [hm] at hr
            simp at hr
          · rw [hm] at hr
            dsimp only at hr
            have hd := pilResize_ok_dims _ _ _ _ hm
            by_cases hf3 : f3 = true
            · rw [if_pos hf3] at hr
              rcases hge : get_edge_mask mask ew with e | em
              · rw [hge] at hr
                simp [Except.map] at hr
              · rw [hge] at hr
                dsimp only [Except.map] at hr
                refine ⟨mask, em, ?_, ?_, ?_⟩
                · have := hd.1
                  omega
                · have := hd.2
                  omega
                · rw [if_pos hf3]
                  exact (Except.ok.inj hr).symm
            · rw [if_neg hf3] at hr
              dsimp only at hr
              refine ⟨mask, mask, ?_, ?_, ?_⟩
              · have := hd.1
                omega
              · have := hd.2
                omega
              · rw [if_neg hf3]
                exact (Except.ok.inj hr).symm
      · simp at hr

/-- C1: a `process` call that returns yields a triple whose components are
`None` exactly when the corresponding flag is false, and with all three
flags false the call returns `(None, None, None)` immediately, performing
no resize and no model invocation (empty event trace, for every network). -/
theorem spec_C1 (net : Img → Img) (fg : Img → Img → Img) (image : Img) (resolution : String)
    (f1 f2 f3 : Bool) (ew : Int) :
    ((f1 = false ∧ f2 = false ∧ f3 = false) →
      process net fg image resolution f1 f2 f3 ew = (.ok ⟨none, none, none⟩, [])) ∧
    (∀ r, (process net fg image resolution f1 f2 f3 ew).1 = .ok r →
      ((r.mask = none ↔ f1 = false) ∧ (r.foreground = none ↔ f2 = false) ∧
       (r.edge_mask = none ↔ f3 = false))) := by
  constructor
  · intro hall
    unfold process
    rw [if_pos hall]
  · intro r hr
    rcases process_ok_cases net fg image resolution f1 f2 f3 ew r hr with
      ⟨h1, h2, h3, rfl⟩ | ⟨hall, mask, em, hw, hh, rfl⟩
    · simp [h1, h2, h3]
    · cases f1 <;> cases f2 <;> cases f3 <;> simp

/-- Witness for C1: with all flags false the call short-circuits. -/
theorem spec_C1_witness :
    process id (fun i _ => i) sampleImg "" false false false 6 = (.ok ⟨none, none, none⟩, []) :=
  (spec_C1 id (fun i _ => i) sampleImg "" false false false 6).1 ⟨rfl, rfl, rfl⟩

/-- C2: when the (possibly image-derived) resolution string splits as
`"WxH"` with integer tokens `W` and `H`, the first action of `process` is
a resize of the input to exactly `(W // 32 * 32, H // 32 * 32)`; each
target dimension is the multiple of 32 obtained by rounding the
requested value down. -/
theorem spec_C2 (net : Img → Img) (fg : Img → Img → Img) (image : Img) (resolution : String)
    (f1 f2 f3 : Bool) (ew : Int) (W H : Int) (ws hs : List Char)
    (hflag : ¬(f1 = false ∧ f2 = false ∧ f3 = false))
    (hsplit : splitOnChar 'x' (stripList (resString image resolution).data) = [ws, hs])
    (hW : pyInt ws = some W) (hH : pyInt hs = some H) :
    (process net fg image resolution f1 f2 f3 ew).2.head? =
      some (.resizeEv (W / 32 * 32) (H / 32 * 32)) ∧
    (32 ∣ W / 32 * 32) ∧ W / 32 * 32 ≤ W ∧ W < W / 32 * 32 + 32 ∧
    (32 ∣ H / 32 * 32) ∧ H / 32 * 32 ≤ H ∧ H < H / 32 * 32 + 32 := by
  have hparse : parseDims (splitOnChar 'x' (stripList (resString image resolution).data)) =
      some [W / 32 * 32, H / 32 * 32] := by
    rw [hsplit]
    simp [parseDims, hW, hH]
  refine ⟨?_, by omega, by omega, by omega, by omega, by omega, by omega⟩
  unfold process
  rw [if_neg hflag, hparse]
  dsimp only
  split
  · rfl
  · split
    · rfl
    · split
      · rfl
      · rfl

/-- Witness for C2 at the concrete resolution string `"64x32"`. -/
theorem spec_C2_witness :
    (process id (fun i _ => i) sampleImg "64x32" true false false 6).2.head? =
      some (.resizeEv ((64 : Int) / 32 * 32) ((32 : Int) / 32 * 32)) ∧
    ((32 : Int) ∣ (64 : Int) / 32 * 32) ∧ (64 : Int) / 32 * 32 ≤ 64 ∧
      (64 : Int) < (64 : Int) / 32 * 32 + 32 ∧
    ((32 : Int) ∣ (32 : Int) / 32 * 32) ∧ (32 : Int) / 32 * 32 ≤ 32 ∧
      (32 : Int) < (32 : Int) / 32 * 32 + 32 :=
  spec_C2 id (fun i _ => i) sampleImg "64x32" true false false 6 64 32
    ['6', '4'] ['3', '2'] (by decide) (by decide) (by decide) (by decide)

/-- C7: a `process` call that succeeds with `return_mask = true` returns a
mask with exactly the `(width, height)` of the original input image: the
prediction is resized back to `image.size`. -/
theorem spec_C7 (net : Img → Img) (fg : Img → Img → Img) (image : Img) (resolution : String)
    (f1 f2 f3 : Bool) (ew : Int) (h1 : f1 = true)
    (h2 : isOkE (process net fg image resolution f1 f2 f3 ew).1 = true) :
    maskDims (process net fg image resolution f1 f2 f3 ew).1 =
      some (image.width, image.height) := by
  rcases hok : (process net fg image resolution f1 f2 f3 ew).1 with e | r
  · rw [hok] at h2
    simp [isOkE] at h2
  · rcases process_ok_cases net fg image resolution f1 f2 f3 ew r hok with
      ⟨hf1, _, _, rfl⟩ | ⟨_, mask, em, hw, hh, rfl⟩
    · rw [h1] at hf1
      exact absurd hf1 (by decide)
    · simp [maskDims, h1, hw, hh]

/-- Witness for C7 on a concrete run at resolution `"64x32"`. -/
theorem spec_C7_witness :
    maskDims (process id (fun i _ => i) sampleImg "64x32" true false false 0).1 =
      some (4, 3) :=
  spec_C7 id (fun i _ => i) sampleImg "64x32" true false false 0 rfl rfl

/-- C9: with the empty resolution string, `process` behaves exactly as if
it had been called with the string `"{image.width}x{image.height}"`. -/
theorem spec_C9 (net : Img → Img) (fg : Img → Img → Img) (image : Img)
    (f1 f2 f3 : Bool) (ew : Int) :
    process net fg image "" f1 f2 f3 ew =
      process net fg image (Nat.repr image.width ++ "x" ++ Nat.repr image.height) f1 f2 f3 ew := by
  have hres : resString image "" =
      resString image (Nat.repr image.width ++ "x" ++ Nat.repr image.height) := by
    unfold resString
    rw [if_pos rfl, if_neg (res_ne_empty _ _)]
  unfold process
  rw [hres]
